import Mathlib

/-!
Shallow embedding of `multiPCA9685.cpp` (TheSpaceEgg/multiPCA9685).

The library drives PCA9685 16-channel PWM chips over I2C. A `PCA9685`
object owns one transport handle; its methods only emit register writes
through that handle, so each method is embedded as a function returning
the list of I2C writes it issues. The `MultiPCA9685` aggregator owns an
ordered list of drivers and routes a flat motor index to one of them;
its methods are embedded as state-passing functions returning the list
of observable events together with the (possibly updated) object state.

Machine integers are modelled as `Nat` with explicit `% 2^w` reduction
at the points where the C++ parameter types (`uint8_t`, `uint16_t`)
truncate caller values. The floating-point `double` arithmetic in
`setFreq` is modelled by exact rational arithmetic; on the inputs the
claims quantify over, the intermediate quantities are far enough from
integer boundaries that `double` rounding cannot change the truncated
result, so the rational model agrees with the source.
-/

/-- One write issued through the I2C transport collaborator:
either a single-byte register write (`writeRegister(reg, value)`) or a
contiguous multi-byte block write (`writeRegister(reg, data, length)`). -/
inductive I2CWrite where
  | reg (register : ℕ) (value : ℕ)
  | block (register : ℕ) (data : List ℕ)
deriving DecidableEq, Repr

/-- Modelled from the spec: the register-map constants live in the header
`multiPCA9685.h`, which is not under `src/`. The spec names MODE1
symbolically; the numeric address is the standard PCA9685 MODE1 address. -/
def MODE1 : ℕ := 0x00

/-- Modelled from the spec: PRESCALE register address from the missing
header; the standard PCA9685 prescale register address. -/
def PRE_SCALE : ℕ := 0xFE

/-- Modelled from the spec: the per-channel PWM register base address
(`SERVO0_base`) from the missing header; the standard PCA9685 LED0_ON_L
address. The claims use it only symbolically. -/
def SERVO0 : ℕ := 0x06

/-- Modelled from the spec: the per-channel register stride from the
missing header; the spec fixes it at 4 bytes (ON_L, ON_H, OFF_L, OFF_H). -/
def MULTIPLIER : ℕ := 4

/-- Modelled from the spec: channels per chip from the missing header;
the spec fixes `channelsPerDriver` at 16, the channel count of the chip. -/
def outputsPerDriver : ℕ := 16

/-- Modelled from the spec: the fixed internal clock rate from the missing
header, 25,000,000 Hz. The spec describes the prescale computation as
round-half-up on the quotient, which is the behaviour of a floating-point
clock constant, so the constant is modelled as a rational. -/
def CLOCK_FREQ : ℚ := 25000000

/-- The divisor `4096 * freq` in the prescale computation of
`PCA9685::setFreq` (line 40); `freq` is a `uint8_t` parameter, so the
caller value is reduced mod 256. -/
def prescaleDivisor (freq : ℕ) : ℕ := 4096 * (freq % 256)

/-- The prescale value computed by `PCA9685::setFreq` (line 40):
`static_cast<uint8_t>((CLOCK_FREQ / (4096 * freq)) - 1 + 0.5)`.
The cast truncates the non-negative quotient, modelled by `Int.floor`
followed by `Int.toNat`. For frequencies outside the valid range the
C++ cast is undefined behaviour (value outside `uint8_t` range, or a
division by zero at `freq = 0`); the claims restrict to the valid range. -/
def prescale_val (freq : ℕ) : ℕ :=
  (⌊CLOCK_FREQ / (prescaleDivisor freq : ℚ) - 1 + 1/2⌋).toNat

/-- State of one `PCA9685` driver: the identity of its transport handle
(`I2CDevice(bus, deviceAddress)`, both `uint8_t` in the constructor). -/
structure PCA9685 where
  bus : ℕ
  deviceAddress : ℕ
deriving DecidableEq, Repr

/-- `PCA9685::reset` (lines 30-32): one write of `0x20` to MODE1. -/
def PCA9685.reset : List I2CWrite := [I2CWrite.reg MODE1 0x20]

/-- `PCA9685::setFreq` (lines 39-44): sleep (0x10 to MODE1), write the
prescale value to PRE_SCALE, restore with auto-increment (0xA0 to MODE1). -/
def PCA9685.setFreq (freq : ℕ) : List I2CWrite :=
  [I2CWrite.reg MODE1 0x10,
   I2CWrite.reg PRE_SCALE (prescale_val freq),
   I2CWrite.reg MODE1 0xA0]

/-- `PCA9685::setPWM(servo, on_value, off_value)` (lines 61-72): builds the
4-byte block `[on & 0xFF, on >> 8, off & 0xFF, off >> 8]` and issues one
multi-byte write at register `SERVO0 + MULTIPLIER * servo`. Parameters are
`uint8_t servo` and `uint16_t on_value, off_value`, so caller values are
reduced mod 256 and mod 65536 at entry. -/
def PCA9685.setPWM3 (servo on_value off_value : ℕ) : List I2CWrite :=
  let s := servo % 256
  let onv := on_value % 65536
  let offv := off_value % 65536
  [I2CWrite.block (SERVO0 + MULTIPLIER * s)
    [onv % 256, onv / 256, offv % 256, offv / 256]]

/-- `PCA9685::setPWM(servo, value)` (lines 51-53): delegates to the
three-argument overload with on-time 0. -/
def PCA9685.setPWM2 (servo value : ℕ) : List I2CWrite :=
  PCA9685.setPWM3 servo 0 value

/-- State of the `MultiPCA9685` aggregator: the configured
(bus, address) pairs (`std::pair<int, uint8_t>`, so `ℤ × ℕ`), the
constructed drivers, the driver count, the shared device frequency, and
the debug flag. -/
structure MultiPCA9685 where
  busAddressPairs : List (ℤ × ℕ)
  pwmDrivers : List PCA9685
  numDrivers : ℕ
  DevFrequency : ℕ
  PCA9685_DEBUG : Bool
deriving DecidableEq, Repr

/-- `MultiPCA9685::MultiPCA9685(bus_address_pairs, frequency)`
(lines 81-88): stores the pairs, the count and the frequency, and
constructs one `PCA9685` per pair in order (the `int` bus and the
`uint8_t` address and frequency are reduced to their parameter widths).
Modelled from the spec: the initial debug flag is off (§8: toggling twice
"suppresses debug lines again"); its initialiser is in the missing header. -/
def MultiPCA9685.make (pairs : List (ℤ × ℕ)) (frequency : ℕ) : MultiPCA9685 :=
  { busAddressPairs := pairs
    pwmDrivers := pairs.map (fun p => ⟨(p.1 % 256).toNat, p.2 % 256⟩)
    numDrivers := pairs.length
    DevFrequency := frequency % 256
    PCA9685_DEBUG := false }

/-- One observable event of an aggregator method: a debug line printed to
the console (with the values the source prints), or one I2C write
forwarded to the driver at a given index. -/
inductive MEvent where
  | debugLine (onv offv motorIndex driverIndex channel : ℕ)
      (address : ℕ) (bus : ℤ)
  | write (driverIndex : ℕ) (w : I2CWrite)
deriving DecidableEq, Repr

/-- Whether an event is an I2C write (as opposed to console output). -/
def MEvent.isWrite : MEvent → Bool
  | MEvent.write _ _ => true
  | _ => false

/-- The driver index an event targets or mentions. -/
def MEvent.driverIndexOf : MEvent → ℕ
  | MEvent.debugLine _ _ _ d _ _ _ => d
  | MEvent.write d _ => d

/-- `MultiPCA9685::setPWM(motorIndex, on, off)` (lines 108-123): computes
`driverIndex = motorIndex / outputsPerDriver` and
`channel = motorIndex % outputsPerDriver`; if `driverIndex < numDrivers`,
optionally prints a debug line and forwards to that driver, else does
nothing. `motorIndex` is `uint8_t` and `on`, `off` are `uint16_t`, so
caller values are reduced at entry. No field is assigned, so the state is
returned unchanged. -/
def MultiPCA9685.setPWM3 (st : MultiPCA9685) (motorIndex onv offv : ℕ) :
    List MEvent × MultiPCA9685 :=
  let m := motorIndex % 256
  let on16 := onv % 65536
  let off16 := offv % 65536
  let driverIndex := m / outputsPerDriver
  let channel := m % outputsPerDriver
  if driverIndex < st.numDrivers then
    let pair := st.busAddressPairs.getD driverIndex (0, 0)
    let dbg : List MEvent :=
      if st.PCA9685_DEBUG then
        [MEvent.debugLine on16 off16 m driverIndex channel pair.2 pair.1]
      else []
    (dbg ++ (PCA9685.setPWM3 channel on16 off16).map (MEvent.write driverIndex),
     st)
  else ([], st)

/-- `MultiPCA9685::setPWM(motorIndex, val)` (lines 96-98): delegates to the
three-argument overload with on-time 0. -/
def MultiPCA9685.setPWM2 (st : MultiPCA9685) (motorIndex val : ℕ) :
    List MEvent × MultiPCA9685 :=
  st.setPWM3 motorIndex 0 val

/-- The structured content of the console report printed by
`MultiPCA9685::getSetup` (lines 128-140): driver count, shared frequency,
and per driver its 1-based position, bus and address. The console text
formatting is abstracted to this structure. -/
structure SetupReport where
  numDrivers : ℕ
  DevFrequency : ℕ
  drivers : List (ℕ × ℤ × ℕ)
deriving DecidableEq, Repr

/-- `MultiPCA9685::getSetup` (lines 128-140): prints the configuration;
assigns no field, so the state is returned unchanged. -/
def MultiPCA9685.getSetup (st : MultiPCA9685) : SetupReport × MultiPCA9685 :=
  (⟨st.numDrivers, st.DevFrequency,
    st.busAddressPairs.enum.map (fun p => (p.1 + 1, p.2.1, p.2.2))⟩,
   st)

/-- `MultiPCA9685::toggleDebug` (lines 145-151): flips the debug flag and
prints a one-line confirmation of the new state. -/
def MultiPCA9685.toggleDebug (st : MultiPCA9685) : String × MultiPCA9685 :=
  let d := !st.PCA9685_DEBUG
  (if d then "Debug output On." else "Debug output Off.",
   { st with PCA9685_DEBUG := d })

/-- Round half up on a non-negative rational, as the spec words it. -/
def roundHalfUp (q : ℚ) : ℤ := ⌊q + 1/2⌋

/-- Follows the spec words for the prescale formula:
`prescale = round(clock / (4096 * frequencyHz)) - 1` with round-half-up. -/
def specPrescale (clock : ℚ) (freq : ℕ) : ℤ :=
  roundHalfUp (clock / (4096 * (freq : ℚ))) - 1

/-- Helper: reducing twice by the same modulus is reducing once. -/
theorem mod_mod_eq (n k : ℕ) : n % k % k = n % k :=
  Nat.mod_mod_of_dvd n dvd_rfl

/-- Helper: `MultiPCA9685::setPWM` assigns no field, so the state
component of its result is the input state. -/
theorem setPWM3_state (st : MultiPCA9685) (m onv offv : ℕ) :
    (st.setPWM3 m onv offv).2 = st := by
  rw [MultiPCA9685.setPWM3]
  split
  all_goals rfl

/-- C1: for every frequency in the valid range (24..255 Hz, the
frequencies expressible as `uint8_t` whose prescale fits the register),
the prescale value computed and written by `PCA9685::setFreq` equals
`round(clock / (4096 * freq)) - 1` with round-half-up on the non-negative
quotient; in particular clock = 25,000,000 and freq = 50 gives 121. -/
theorem setFreq_prescale_roundHalfUp (f : ℕ) (h1 : 24 ≤ f) (h2 : f ≤ 255) :
    (prescale_val f : ℤ) = specPrescale CLOCK_FREQ f ∧
    PCA9685.setFreq f =
      [I2CWrite.reg MODE1 0x10,
       I2CWrite.reg PRE_SCALE (prescale_val f),
       I2CWrite.reg MODE1 0xA0] ∧
    prescale_val 50 = 121 := by
  refine ⟨?_, rfl, ?_⟩
  · have hf256 : f % 256 = f := Nat.mod_eq_of_lt (by omega)
    have hfpos : (0 : ℚ) < (f : ℚ) := by
      have h0 : 0 < f := by omega
      exact_mod_cast h0
    have hdpos : (0 : ℚ) < 4096 * (f : ℚ) := by positivity
    have hq : (1 : ℚ) / 2 ≤ CLOCK_FREQ / (4096 * (f : ℚ)) := by
      rw [le_div_iff₀ hdpos]
      have hle : (f : ℚ) ≤ 255 := by exact_mod_cast h2
      rw [CLOCK_FREQ]
      nlinarith
    have hfloor : ⌊CLOCK_FREQ / (4096 * (f : ℚ)) - 1 + 1/2⌋
        = ⌊CLOCK_FREQ / (4096 * (f : ℚ)) + 1/2⌋ - 1 := by
      have he : CLOCK_FREQ / (4096 * (f : ℚ)) - 1 + 1/2
          = CLOCK_FREQ / (4096 * (f : ℚ)) + 1/2 - ((1 : ℤ) : ℚ) := by
        push_cast
        ring
      rw [he, Int.floor_sub_int]
    have hnonneg : 0 ≤ ⌊CLOCK_FREQ / (4096 * (f : ℚ)) - 1 + 1/2⌋ := by
      apply Int.floor_nonneg.mpr
      linarith
    have hcast : ((prescaleDivisor f : ℕ) : ℚ) = 4096 * (f : ℚ) := by
      rw [prescaleDivisor, hf256]
      push_cast
      ring
    rw [prescale_val, hcast, Int.toNat_of_nonneg hnonneg, hfloor,
      specPrescale, roundHalfUp]
  · norm_num [prescale_val, prescaleDivisor, CLOCK_FREQ]
    decide

/-- Witness for C1 at freq = 50. -/
theorem setFreq_prescale_roundHalfUp_witness :
    24 ≤ 50 ∧ 50 ≤ 255 ∧
      ((prescale_val 50 : ℤ) = specPrescale CLOCK_FREQ 50 ∧
       PCA9685.setFreq 50 =
         [I2CWrite.reg MODE1 0x10,
          I2CWrite.reg PRE_SCALE (prescale_val 50),
          I2CWrite.reg MODE1 0xA0] ∧
       prescale_val 50 = 121) :=
  ⟨by decide, by decide,
   setFreq_prescale_roundHalfUp 50 (by decide) (by decide)⟩

/-- C2: for every flat motor index whose resolved driver index is in
range, the I2C writes issued by `MultiPCA9685::setPWM` are exactly the
writes of the driver-level `setPWM` at channel `flatIndex % 16`,
forwarded to driver `flatIndex / 16` (the flat index first being reduced
to its `uint8_t` width); and flat index 17 resolves to driver 1,
channel 1. -/
theorem multi_setPWM_index_resolution (st : MultiPCA9685) (m onv offv : ℕ)
    (h : m % 256 / 16 < st.numDrivers) :
    ((st.setPWM3 m onv offv).1.filter MEvent.isWrite)
      = (PCA9685.setPWM3 (m % 256 % 16) onv offv).map
          (MEvent.write (m % 256 / 16)) ∧
    17 % 256 / 16 = 1 ∧ 17 % 256 % 16 = 1 := by
  refine ⟨?_, by decide, by decide⟩
  cases hdbg : st.PCA9685_DEBUG
  all_goals
    simp [MultiPCA9685.setPWM3, outputsPerDriver, h, hdbg,
      PCA9685.setPWM3, MEvent.isWrite, mod_mod_eq]

/-- Witness for C2 on an aggregator built from two (bus, address) pairs,
at flat index 17. -/
theorem multi_setPWM_index_resolution_witness :
    17 % 256 / 16 < (MultiPCA9685.make [(1, 0x40), (3, 0x41)] 50).numDrivers ∧
      ((((MultiPCA9685.make [(1, 0x40), (3, 0x41)] 50).setPWM3 17 0 2000).1.filter
          MEvent.isWrite)
        = (PCA9685.setPWM3 (17 % 256 % 16) 0 2000).map
            (MEvent.write (17 % 256 / 16)) ∧
       17 % 256 / 16 = 1 ∧ 17 % 256 % 16 = 1) :=
  ⟨by decide,
   multi_setPWM_index_resolution (MultiPCA9685.make [(1, 0x40), (3, 0x41)] 50)
     17 0 2000 (by decide)⟩

/-- C3 counterexample: the bytes written by `PCA9685::setPWM` are not
invariant under masking the on value to 12 bits; at on = 4096 the high
byte changes, so the encoding does not truncate to 12 bits. -/
theorem setPWM_mask12_counterexample :
    PCA9685.setPWM3 0 4096 0 ≠ PCA9685.setPWM3 0 (4096 % 4096) (0 % 4096) := by
  decide

/-- C3 (amended): the encoded bytes depend only on the low 16 bits of the
on/off values (the `uint16_t` parameter width); bits 12-15 are not masked
off but transmitted in the high bytes, so out-of-range values are
truncated to 16 bits by the parameter type, not to 12 bits by the
encoding. -/
theorem setPWM_mask16 (ch onv offv : ℕ) :
    PCA9685.setPWM3 ch onv offv
      = PCA9685.setPWM3 ch (onv % 65536) (offv % 65536) := by
  simp [PCA9685.setPWM3, mod_mod_eq]

/-- C4: for every flat motor index whose resolved driver index is at
least `numDrivers`, `MultiPCA9685::setPWM` emits no event (no I2C write
and no debug line, whatever the debug flag) and leaves the state
unchanged. -/
theorem multi_setPWM_out_of_range_noop (st : MultiPCA9685) (m onv offv : ℕ)
    (h : st.numDrivers ≤ m % 256 / 16) :
    st.setPWM3 m onv offv = ([], st) := by
  rw [MultiPCA9685.setPWM3]
  simp only [outputsPerDriver]
  rw [if_neg (Nat.not_lt.mpr h)]

/-- Witness for C4: one configured driver, flat index 16 (driver index 1),
debug flag enabled. -/
theorem multi_setPWM_out_of_range_noop_witness :
    ({ MultiPCA9685.make [(1, 0x40)] 50 with
        PCA9685_DEBUG := true } : MultiPCA9685).numDrivers ≤ 16 % 256 / 16 ∧
      ({ MultiPCA9685.make [(1, 0x40)] 50 with
          PCA9685_DEBUG := true } : MultiPCA9685).setPWM3 16 0 2000
        = ([], { MultiPCA9685.make [(1, 0x40)] 50 with
            PCA9685_DEBUG := true }) :=
  ⟨by decide,
   multi_setPWM_out_of_range_noop
     { MultiPCA9685.make [(1, 0x40)] 50 with PCA9685_DEBUG := true }
     16 0 2000 (by decide)⟩

/-- C5: for every channel and 16-bit on/off pair, `PCA9685::setPWM`
issues exactly one transport write, a contiguous 4-byte block
[on low, on high, off low, off high] starting at `SERVO0 + 4 * ch`;
in particular on = 0x0155, off = 0x0FAB gives bytes
[0x55, 0x01, 0xAB, 0x0F]. -/
theorem setPWM_single_block_write (ch onv offv : ℕ) (hch : ch < 256)
    (hon : onv < 65536) (hoff : offv < 65536) :
    PCA9685.setPWM3 ch onv offv
      = [I2CWrite.block (SERVO0 + 4 * ch)
          [onv % 256, onv / 256, offv % 256, offv / 256]] ∧
    PCA9685.setPWM3 2 0x0155 0x0FAB
      = [I2CWrite.block (SERVO0 + 4 * 2) [0x55, 0x01, 0xAB, 0x0F]] := by
  constructor
  · simp [PCA9685.setPWM3, MULTIPLIER, Nat.mod_eq_of_lt hch,
      Nat.mod_eq_of_lt hon, Nat.mod_eq_of_lt hoff]
  · decide

/-- Witness for C5 at channel 2, on = 0x0155, off = 0x0FAB. -/
theorem setPWM_single_block_write_witness :
    2 < 256 ∧ 0x0155 < 65536 ∧ 0x0FAB < 65536 ∧
      (PCA9685.setPWM3 2 0x0155 0x0FAB
        = [I2CWrite.block (SERVO0 + 4 * 2)
            [0x0155 % 256, 0x0155 / 256, 0x0FAB % 256, 0x0FAB / 256]] ∧
       PCA9685.setPWM3 2 0x0155 0x0FAB
        = [I2CWrite.block (SERVO0 + 4 * 2) [0x55, 0x01, 0xAB, 0x0F]]) :=
  ⟨by decide, by decide, by decide,
   setPWM_single_block_write 2 0x0155 0x0FAB (by decide) (by decide)
     (by decide)⟩

/-- C6: every call to `PCA9685::setFreq` issues exactly three register
writes, in order: 0x10 to MODE1 (sleep), the computed prescale value to
PRE_SCALE, then 0xA0 to MODE1 (restore); the trace equation fixes the
whole sequence, so the PRE_SCALE write occurs only between the sleep
write and the restore write. -/
theorem setFreq_write_sequence (freq : ℕ) :
    PCA9685.setFreq freq =
      [I2CWrite.reg MODE1 0x10,
       I2CWrite.reg PRE_SCALE (prescale_val freq),
       I2CWrite.reg MODE1 0xA0] ∧
    (PCA9685.setFreq freq).length = 3 :=
  ⟨rfl, rfl⟩

/-- C7: the two-argument overloads delegate to the three-argument forms
with on-time 0, at both the driver and the aggregator level. -/
theorem setPWM_two_arg_delegation (servo value : ℕ) (st : MultiPCA9685)
    (m v : ℕ) :
    PCA9685.setPWM2 servo value = PCA9685.setPWM3 servo 0 value ∧
    st.setPWM2 m v = st.setPWM3 m 0 v :=
  ⟨rfl, rfl⟩

/-- C8: the aggregator configuration is fixed at construction and
preserved by every operation: both `setPWM` overloads and `getSetup`
return the state unchanged, `toggleDebug` changes none of
`busAddressPairs`, `pwmDrivers`, `numDrivers`, `DevFrequency`, and in a
freshly constructed aggregator the driver a flat index resolves to is
the one built from the (index / 16)-th configured pair. -/
theorem multi_config_immutable (st : MultiPCA9685) (pairs : List (ℤ × ℕ))
    (freq m onv offv v : ℕ) :
    (st.setPWM3 m onv offv).2 = st ∧
    (st.setPWM2 m v).2 = st ∧
    st.toggleDebug.2.busAddressPairs = st.busAddressPairs ∧
    st.toggleDebug.2.pwmDrivers = st.pwmDrivers ∧
    st.toggleDebug.2.numDrivers = st.numDrivers ∧
    st.toggleDebug.2.DevFrequency = st.DevFrequency ∧
    st.getSetup.2 = st ∧
    (MultiPCA9685.make pairs freq).pwmDrivers[m % 256 / 16]?
      = (pairs[m % 256 / 16]?).map
          (fun p => ⟨(p.1 % 256).toNat, p.2 % 256⟩) := by
  refine ⟨setPWM3_state st m onv offv, setPWM3_state st m 0 v,
    rfl, rfl, rfl, rfl, rfl, ?_⟩
  simp [MultiPCA9685.make, List.getElem?_map]

/-- C9: every event emitted by `MultiPCA9685::setPWM` targets a driver
index at most 15 (the flat index parameter is `uint8_t`, so the
expressible flat index space is 0..255), and the call behaves exactly as
with the flat index reduced mod 256; hence a driver at position 16 or
higher never receives a command. -/
theorem multi_driver_index_bounded (st : MultiPCA9685) (m onv offv : ℕ)
    (e : MEvent) (he : e ∈ (st.setPWM3 m onv offv).1) :
    e.driverIndexOf ≤ 15 ∧
    st.setPWM3 m onv offv = st.setPWM3 (m % 256) onv offv := by
  constructor
  · by_cases hlt : m % 256 / outputsPerDriver < st.numDrivers
    · cases hdbg : st.PCA9685_DEBUG
      all_goals
        simp [MultiPCA9685.setPWM3, PCA9685.setPWM3, hlt, hdbg] at he
      all_goals
        first
          | (rw [he]
             simp [MEvent.driverIndexOf, outputsPerDriver]
             omega)
          | (rcases he with he | he
             all_goals rw [he]
             all_goals simp [MEvent.driverIndexOf, outputsPerDriver]
             all_goals omega)
    · simp [MultiPCA9685.setPWM3, hlt] at he
  · simp [MultiPCA9685.setPWM3, mod_mod_eq]

/-- Witness for C9: a one-driver aggregator at flat index 0 emits the
single block write to driver 0. -/
theorem multi_driver_index_bounded_witness :
    MEvent.write 0 (I2CWrite.block 6 [0, 0, 0, 0])
        ∈ ((MultiPCA9685.make [(1, 0x40)] 50).setPWM3 0 0 0).1 ∧
      ((MEvent.write 0 (I2CWrite.block 6 [0, 0, 0, 0])).driverIndexOf ≤ 15 ∧
       (MultiPCA9685.make [(1, 0x40)] 50).setPWM3 0 0 0
         = (MultiPCA9685.make [(1, 0x40)] 50).setPWM3 (0 % 256) 0 0) :=
  ⟨by decide,
   multi_driver_index_bounded (MultiPCA9685.make [(1, 0x40)] 50) 0 0 0
     (MEvent.write 0 (I2CWrite.block 6 [0, 0, 0, 0])) (by decide)⟩

/-- C10: under the precondition freq >= 1 (on the `uint8_t` value), the
divisor `4096 * freq` in the prescale computation of `PCA9685::setFreq`
is nonzero, so the division is well-defined; at freq = 0, which the
8-bit parameter can express, the divisor is zero and the computation
divides by zero. -/
theorem setFreq_divisor_nonzero (freq : ℕ) (h1 : 1 ≤ freq)
    (h2 : freq ≤ 255) :
    prescaleDivisor freq ≠ 0 ∧ prescaleDivisor 0 = 0 := by
  constructor
  · rw [prescaleDivisor]
    have hf : freq % 256 = freq := Nat.mod_eq_of_lt (by omega)
    omega
  · rfl

/-- Witness for C10 at freq = 1. -/
theorem setFreq_divisor_nonzero_witness :
    1 ≤ 1 ∧ 1 ≤ 255 ∧ (prescaleDivisor 1 ≠ 0 ∧ prescaleDivisor 0 = 0) :=
  ⟨by decide, by decide, setFreq_divisor_nonzero 1 (by decide) (by decide)⟩
